import Mathlib

/-!
Verification of the polonius borrow-analysis core: the program-to-facts
lowering (polonius-parser/src/ir.rs) and the fact-based region/loan
analysis engine with its evaluation strategies. The ir.rs data model is
embedded from the source; the fact tables, the lowering pass and the
engine's inference rules, whose code is not part of the repository files
(only its tests and the ir data model are), are modelled from the spec.
-/

namespace Polonius

/-! Data model of polonius-parser/src/ir.rs, embedded from the source. -/

/-- The Fact enum of ir.rs (lines 47-56): the individual fact kinds a
lowered statement's effect can carry. -/
inductive Fact where
  | Outlives (a b : String)
  | BorrowRegionAt (region loan : String)
  | Invalidates (loan : String)
  | Kill (loan : String)
  | RegionLiveAt (region : String)
  | DefineVariable (v : String)
  | UseVariable (v : String)
deriving DecidableEq, Repr

/-- The spec's taxonomy of individual fact kinds a statement effect may
carry (outlives, borrow_region_at, invalidates, killed, region_live_at,
variable define, variable use, variable drop-use). -/
inductive SpecFactKind where
  | outlives
  | borrowRegionAt
  | invalidates
  | killed
  | regionLiveAt
  | varDefined
  | varUsed
  | varDropUsed
deriving DecidableEq, Repr

/-- The fact kind each ir.rs Fact constructor denotes. -/
def Fact.kind : Fact → SpecFactKind
  | Fact.Outlives _ _ => SpecFactKind.outlives
  | Fact.BorrowRegionAt _ _ => SpecFactKind.borrowRegionAt
  | Fact.Invalidates _ => SpecFactKind.invalidates
  | Fact.Kill _ => SpecFactKind.killed
  | Fact.RegionLiveAt _ => SpecFactKind.regionLiveAt
  | Fact.DefineVariable _ => SpecFactKind.varDefined
  | Fact.UseVariable _ => SpecFactKind.varUsed

/-- The Effect enum of ir.rs (lines 41-45): a region-use marker or a fact. -/
inductive Effect where
  | Use (regions : List String)
  | Fact (fact : Fact)
deriving DecidableEq, Repr

/-- The Statement struct of ir.rs (lines 32-39): effects destined for the
Start point and effects destined for the Mid point. -/
structure Statement where
  effects_start : List Effect
  effects : List Effect
deriving DecidableEq, Repr

/-- Statement::new of ir.rs (lines 58-75): anything live on entry to the
mid point is also live on entry to the start point, so effects_start is
the region-liveness filter of the given effects. -/
def Statement.new (effects : List Effect) : Statement :=
  { effects_start := effects.filter fun e =>
      match e with
      | Effect.Fact (Fact.RegionLiveAt _) => true
      | _ => false,
    effects := effects }

/-- Statement::with_start_effects of ir.rs (lines 77-82). -/
def Statement.with_start_effects (effects_start effects : List Effect) : Statement :=
  { effects_start := effects_start, effects := effects }

/-- The Block struct of ir.rs (lines 25-30). -/
structure Block where
  name : String
  statements : List Statement
  goto : List String
deriving DecidableEq, Repr

/-- The Input struct of ir.rs (lines 1-7). -/
structure Input where
  universal_regions : List String
  blocks : List Block
  var_uses_region : List (String × String)
  var_drops_region : List (String × String)
deriving DecidableEq, Repr

/-- Input::new of ir.rs (lines 9-23): absent projection tables default to
the empty vector. -/
def Input.new (universal_regions : List String)
    (var_uses_region : Option (List (String × String)))
    (var_drops_region : Option (List (String × String)))
    (blocks : List Block) : Input :=
  { universal_regions := universal_regions,
    var_uses_region := var_uses_region.getD [],
    var_drops_region := var_drops_region.getD [],
    blocks := blocks }

/-! Fact tables and lowering. -/

/-- Modelled from the spec: the flat relational fact tables (AllFacts of
the engine crate, which is not among the repository files; test.rs reads
the fields universal_region, cfg_edge and region_live_at of it). Regions,
loans and variables are kept as names, points as naturals. -/
structure AllFacts where
  universal_region : List String
  cfg_edge : List (Nat × Nat)
  outlives : List (String × String × Nat)
  borrow_region_at : List (String × String × Nat)
  invalidates : List (String × Nat)
  killed : List (String × Nat)
  region_live_at : List (String × Nat)
  var_used : List (String × Nat)
  var_defined : List (String × Nat)
  var_drop_used : List (String × Nat)
  var_uses_region : List (String × String)
  var_drops_region : List (String × String)
deriving DecidableEq, Repr

/-- Concatenation of the lists a function draws from each element. -/
def concatMap (f : α → List β) : List α → List β
  | [] => []
  | x :: xs => f x ++ concatMap f xs

/-- Modelled from the spec: the regions named by the use effects of a
statement, each of which must be live entering the statement (the fact
emitter of the lowering is not among the repository files). -/
def useStartRegions : List Effect → List String
  | [] => []
  | Effect.Use rs :: rest => rs ++ useStartRegions rest
  | _ :: rest => useStartRegions rest

/-- Modelled from the spec: the regions asserted live at a statement's
Start point: the promoted region-liveness effects (effects_start) plus
the regions named by use effects. -/
def startLiveRegions (s : Statement) : List String :=
  (s.effects_start.filterMap fun e =>
    match e with
    | Effect.Fact (Fact.RegionLiveAt r) => some r
    | _ => none) ++ useStartRegions s.effects

/-- Modelled from the spec: region_live_at tuples a statement at start
point n emits — the start assertions at n and the Mid-point effects at
n + 1. -/
def stmtRegionLive (n : Nat) (s : Statement) : List (String × Nat) :=
  (startLiveRegions s).map (fun r => (r, n)) ++
  (s.effects.filterMap fun e =>
    match e with
    | Effect.Fact (Fact.RegionLiveAt r) => some (r, n + 1)
    | _ => none)

/-- Modelled from the spec: outlives tuples a statement at start point n
emits, all attached to the Mid point n + 1. -/
def stmtOutlives (n : Nat) (s : Statement) : List (String × String × Nat) :=
  s.effects.filterMap fun e =>
    match e with
    | Effect.Fact (Fact.Outlives a b) => some (a, b, n + 1)
    | _ => none

/-- Modelled from the spec: borrow_region_at tuples a statement emits,
attached to the Mid point. -/
def stmtBorrowRegionAt (n : Nat) (s : Statement) : List (String × String × Nat) :=
  s.effects.filterMap fun e =>
    match e with
    | Effect.Fact (Fact.BorrowRegionAt r l) => some (r, l, n + 1)
    | _ => none

/-- Modelled from the spec: invalidates tuples a statement emits, attached
to the Mid point. -/
def stmtInvalidates (n : Nat) (s : Statement) : List (String × Nat) :=
  s.effects.filterMap fun e =>
    match e with
    | Effect.Fact (Fact.Invalidates l) => some (l, n + 1)
    | _ => none

/-- Modelled from the spec: killed tuples a statement emits, attached to
the Mid point. -/
def stmtKilled (n : Nat) (s : Statement) : List (String × Nat) :=
  s.effects.filterMap fun e =>
    match e with
    | Effect.Fact (Fact.Kill l) => some (l, n + 1)
    | _ => none

/-- Modelled from the spec: var_defined tuples a statement emits, attached
to the Mid point. -/
def stmtVarDefined (n : Nat) (s : Statement) : List (String × Nat) :=
  s.effects.filterMap fun e =>
    match e with
    | Effect.Fact (Fact.DefineVariable v) => some (v, n + 1)
    | _ => none

/-- Modelled from the spec: var_used tuples a statement emits, attached to
the Mid point. -/
def stmtVarUsed (n : Nat) (s : Statement) : List (String × Nat) :=
  s.effects.filterMap fun e =>
    match e with
    | Effect.Fact (Fact.UseVariable v) => some (v, n + 1)
    | _ => none

/-- Modelled from the spec: each statement of a block paired with its
Start point; every statement occupies two sequential points. -/
def stmtsWithPoints : Nat → List Statement → List (Nat × Statement)
  | _, [] => []
  | c, s :: rest => (c, s) :: stmtsWithPoints (c + 2) rest

/-- Modelled from the spec: each block paired with its first point, blocks
walked in declaration order. -/
def blocksWithPoints : Nat → List Block → List (Nat × Block)
  | _, [] => []
  | c, b :: bs => (c, b) :: blocksWithPoints (c + 2 * b.statements.length) bs

/-- Modelled from the spec: the first point of each block by name. -/
def blockStarts (blocks : List Block) : List (String × Nat) :=
  (blocksWithPoints 0 blocks).map fun cb => (cb.2.name, cb.1)

/-- Modelled from the spec: intra-block edges — Start to Mid for every
statement, Mid to the next statement's Start within the block. -/
def stmtEdges : Nat → List Statement → List (Nat × Nat)
  | _, [] => []
  | c, _ :: [] => [(c, c + 1)]
  | c, _ :: s :: rest => (c, c + 1) :: (c + 1, c + 2) :: stmtEdges (c + 2) (s :: rest)

/-- Modelled from the spec: for the last statement of a block, an edge
from its Mid point to the first point of every declared successor. -/
def gotoEdges (starts : List (String × Nat)) (c : Nat) (b : Block) : List (Nat × Nat) :=
  match b.statements.length with
  | 0 => []
  | Nat.succ k => b.goto.filterMap fun tgt =>
      (starts.lookup tgt).map fun t => (c + 2 * k + 1, t)

/-- Modelled from the spec: the control-flow edges of a lowered program. -/
def lowerCfgEdge (inp : Input) : List (Nat × Nat) :=
  let starts := blockStarts inp.blocks
  concatMap (fun cb => stmtEdges cb.1 cb.2.statements ++ gotoEdges starts cb.1 cb.2)
    (blocksWithPoints 0 inp.blocks)

/-- Modelled from the spec: every statement of the program with its Start
point. -/
def allStmts (inp : Input) : List (Nat × Statement) :=
  concatMap (fun cb => stmtsWithPoints cb.1 cb.2.statements) (blocksWithPoints 0 inp.blocks)

/-- Modelled from the spec: the lowering of a structural Input to flat
fact tables (the emitter, src/program.rs of the repository, is not among
the repository files). The var_drop_used relation is necessarily left
empty: no constructor of the ir.rs Fact enum denotes a drop-use. -/
def lowerInput (inp : Input) : AllFacts :=
  let ss := allStmts inp
  { universal_region := inp.universal_regions,
    cfg_edge := lowerCfgEdge inp,
    outlives := concatMap (fun cs => stmtOutlives cs.1 cs.2) ss,
    borrow_region_at := concatMap (fun cs => stmtBorrowRegionAt cs.1 cs.2) ss,
    invalidates := concatMap (fun cs => stmtInvalidates cs.1 cs.2) ss,
    killed := concatMap (fun cs => stmtKilled cs.1 cs.2) ss,
    region_live_at := concatMap (fun cs => stmtRegionLive cs.1 cs.2) ss,
    var_used := concatMap (fun cs => stmtVarUsed cs.1 cs.2) ss,
    var_defined := concatMap (fun cs => stmtVarDefined cs.1 cs.2) ss,
    var_drop_used := [],
    var_uses_region := inp.var_uses_region,
    var_drops_region := inp.var_drops_region }

/-! Analysis engine, modelled from the spec: the engine crate is not among
the repository files, only its tests are. -/

/-- Modelled from the spec: the points of the control-flow graph, the ends
of its edges. -/
def allPoints (f : AllFacts) : List Nat :=
  f.cfg_edge.map Prod.fst ++ f.cfg_edge.map Prod.snd

/-- Modelled from the spec: region liveness in the engine's output — the
input region_live_at facts, plus every universal region at every point
(a universal region is declared valid at all points; the repository's
compare_region_live_at tests assert exactly this output). -/
def RegionLive (f : AllFacts) (r : String) (p : Nat) : Prop :=
  (r, p) ∈ f.region_live_at ∨ (r ∈ f.universal_region ∧ p ∈ allPoints f)

instance (f : AllFacts) (r : String) (p : Nat) : Decidable (RegionLive f r p) :=
  inferInstanceAs (Decidable ((r, p) ∈ f.region_live_at ∨
    (r ∈ f.universal_region ∧ p ∈ allPoints f)))

/-- Modelled from the spec: the Naive strategy's derived subset relation —
the least fixpoint of the outlives base facts per point, transitivity per
point, and forward propagation along control-flow edges restricted to
pairs live at the target point. -/
inductive Subset (f : AllFacts) : String → String → Nat → Prop where
  | base (a b : String) (p : Nat) :
      (a, b, p) ∈ f.outlives → Subset f a b p
  | trans (a b c : String) (p : Nat) :
      Subset f a b p → Subset f b c p → Subset f a c p
  | step (a b : String) (p q : Nat) :
      Subset f a b p → (p, q) ∈ f.cfg_edge →
      RegionLive f a q → RegionLive f b q → Subset f a b q

/-- Modelled from the spec: the Naive strategy's requires relation — a
region requires a loan where the borrow is created, every derived
superset region requires it too, and the requirement flows along
control-flow edges while the loan is not killed and the region stays
live. -/
inductive Requires (f : AllFacts) : String → String → Nat → Prop where
  | base (r l : String) (p : Nat) :
      (r, l, p) ∈ f.borrow_region_at → Requires f r l p
  | sub (r1 r2 l : String) (p : Nat) :
      Requires f r1 l p → Subset f r1 r2 p → Requires f r2 l p
  | step (r l : String) (p q : Nat) :
      Requires f r l p → (l, p) ∉ f.killed →
      (p, q) ∈ f.cfg_edge → RegionLive f r q → Requires f r l q

/-- Modelled from the spec: a loan is live at a point when some region
requiring it is live there. -/
def BorrowLiveAt (f : AllFacts) (l : String) (p : Nat) : Prop :=
  ∃ r, Requires f r l p ∧ RegionLive f r p

/-- Modelled from the spec: the errors output relation — errors holds a
loan at a point when some region requiring the loan is live there and the
input invalidates the loan there. -/
def Errors (f : AllFacts) (l : String) (p : Nat) : Prop :=
  ∃ r, Requires f r l p ∧ RegionLive f r p ∧ (l, p) ∈ f.invalidates

/-- Modelled from the spec: the LocationInsensitive strategy's subset
relation — point ordering ignored, all outlives facts merged as if
holding simultaneously, one global transitive closure. -/
inductive SubsetAnywhere (f : AllFacts) : String → String → Prop where
  | base (a b : String) (p : Nat) :
      (a, b, p) ∈ f.outlives → SubsetAnywhere f a b
  | trans (a b c : String) :
      SubsetAnywhere f a b → SubsetAnywhere f b c → SubsetAnywhere f a c

/-- Modelled from the spec: the LocationInsensitive strategy's requires
relation — borrow-creation facts merged over all points, closed under the
global subset relation. -/
inductive RequiresAnywhere (f : AllFacts) : String → String → Prop where
  | base (r l : String) (p : Nat) :
      (r, l, p) ∈ f.borrow_region_at → RequiresAnywhere f r l
  | sub (r1 r2 l : String) :
      RequiresAnywhere f r1 l → SubsetAnywhere f r1 r2 → RequiresAnywhere f r2 l

/-- Modelled from the spec: the LocationInsensitive strategy's errors — a
loan a live region requires (location-insensitively) at a point where the
loan is invalidated. -/
def InsensitiveError (f : AllFacts) (l : String) (p : Nat) : Prop :=
  (∃ r, RequiresAnywhere f r l ∧ RegionLive f r p) ∧ (l, p) ∈ f.invalidates

/-- Modelled from the spec: the Naive strategy's variable liveness — a
variable is live where it is used, and liveness propagates backward along
control-flow edges unless the variable is (re)defined at the predecessor. -/
inductive VarLive (f : AllFacts) : String → Nat → Prop where
  | use (v : String) (p : Nat) :
      (v, p) ∈ f.var_used → VarLive f v p
  | step (v : String) (p q : Nat) :
      VarLive f v q → (p, q) ∈ f.cfg_edge →
      (v, p) ∉ f.var_defined → VarLive f v p

/-! Concrete programs from the repository's tests, lowered by the model. -/

/-- The issue_31567 test program (test.rs lines 201-222): a single block
whose one statement borrows region a for loan L0, declares the outlives
chain a, b, c, d with no intervening point boundary, and asserts region d
live. -/
def issue31567 : Input :=
  Input.new [] none none
    [ { name := "B0",
        statements := [Statement.new
          [ Effect.Fact (Fact.BorrowRegionAt "a" "L0"),
            Effect.Fact (Fact.Outlives "a" "b"),
            Effect.Fact (Fact.Outlives "b" "c"),
            Effect.Fact (Fact.Outlives "c" "d"),
            Effect.Fact (Fact.RegionLiveAt "d") ]],
        goto := [] } ]

/-- A single-statement program whose outlives facts form a two-cycle at
one point. -/
def cyclicOutlives : Input :=
  Input.new [] none none
    [ { name := "B0",
        statements := [Statement.new
          [ Effect.Fact (Fact.Outlives "a" "b"),
            Effect.Fact (Fact.Outlives "b" "a") ]],
        goto := [] } ]

/-- A single-statement program with one acyclic outlives fact. -/
def acyclicChain : Input :=
  Input.new [] none none
    [ { name := "B0",
        statements := [Statement.new
          [ Effect.Fact (Fact.Outlives "a" "bb") ]],
        goto := [] } ]

/-- A single-statement program with a borrow of a live region invalidated
at the same statement: the Naive analysis reports an error at its Mid
point. -/
def errorProgram : Input :=
  Input.new [] none none
    [ { name := "B0",
        statements := [Statement.new
          [ Effect.Fact (Fact.BorrowRegionAt "a" "L0"),
            Effect.Fact (Fact.RegionLiveAt "a"),
            Effect.Fact (Fact.Invalidates "L0") ]],
        goto := [] } ]

/-- The var_live_in_successor_propagates_to_predecessor test program
(test.rs lines 347-381): three chained blocks, each generating points via
an invalidates fact, with the variable V1 used only in the third block. -/
def threeBlocks : Input :=
  Input.new [] none none
    [ { name := "B0",
        statements := [Statement.new [Effect.Fact (Fact.Invalidates "L0")]],
        goto := ["B1"] },
      { name := "B1",
        statements := [Statement.new [Effect.Fact (Fact.Invalidates "L0")]],
        goto := ["B2"] },
      { name := "B2",
        statements := [Statement.new [Effect.Fact (Fact.Invalidates "L0")],
                       Statement.new [Effect.Fact (Fact.UseVariable "V1")]],
        goto := [] } ]

/-- The var_live_in_successor_killed_by_reassignment test program
(test.rs lines 383-443): block B1 (re)defines V1 at its Mid point 3,
between block B0, which does not mention V1, and block B2, which uses
V1. -/
def redefineProgram : Input :=
  Input.new [] none none
    [ { name := "B0",
        statements := [Statement.new [Effect.Fact (Fact.Invalidates "L0")]],
        goto := ["B1"] },
      { name := "B1",
        statements := [Statement.new [Effect.Fact (Fact.DefineVariable "V1")],
                       Statement.new [Effect.Fact (Fact.Invalidates "L0")]],
        goto := ["B2"] },
      { name := "B2",
        statements := [Statement.new [Effect.Fact (Fact.Invalidates "L0")],
                       Statement.new [Effect.Fact (Fact.UseVariable "V1")]],
        goto := [] } ]

/-- The points VarLive reaches on the redefinition program: the Mid point
of the defining statement and everything before it are excluded. -/
def redefineLiveSet : List (String × Nat) :=
  [("V1", 4), ("V1", 5), ("V1", 6), ("V1", 7), ("V1", 8), ("V1", 9)]

/-! Helper lemmas shared by the claims. -/

theorem subsetAnywhere_of_subset (f : AllFacts) (a b : String) (p : Nat)
    (h : Subset f a b p) : SubsetAnywhere f a b := by
  induction h with
  | base a b p hm => exact SubsetAnywhere.base a b p hm
  | trans a b c p h1 h2 ih1 ih2 => exact SubsetAnywhere.trans a b c ih1 ih2
  | step a b p q h he l1 l2 ih => exact ih

theorem requiresAnywhere_of_requires (f : AllFacts) (r l : String) (p : Nat)
    (h : Requires f r l p) : RequiresAnywhere f r l := by
  induction h with
  | base r l p hm => exact RequiresAnywhere.base r l p hm
  | sub r1 r2 l p h1 h2 ih => exact RequiresAnywhere.sub r1 r2 l ih (subsetAnywhere_of_subset f r1 r2 p h2)
  | step r l p q h1 hk he hl ih => exact ih

theorem varLive_bound (f : AllFacts) (S : List (String × Nat))
    (hUse : ∀ x ∈ f.var_used, x ∈ S)
    (hStep : ∀ x ∈ S, ∀ e ∈ f.cfg_edge, e.2 = x.2 →
      (x.1, e.1) ∈ f.var_defined ∨ (x.1, e.1) ∈ S) :
    ∀ (v : String) (p : Nat), VarLive f v p → (v, p) ∈ S := by
  intro v p h
  induction h with
  | use p hm => exact hUse _ hm
  | step p q hq he hd ih =>
      rcases hStep _ ih _ he rfl with h1 | h1
      · exact absurd h1 hd
      · exact h1

theorem mem_useStartRegions (effects : List Effect) (rs : List String) (r : String)
    (hu : Effect.Use rs ∈ effects) (hr : r ∈ rs) : r ∈ useStartRegions effects := by
  induction effects with
  | nil => cases hu
  | cons e rest ih =>
    cases hu with
    | head =>
        show r ∈ useStartRegions (Effect.Use rs :: rest)
        simp only [useStartRegions, List.mem_append]
        exact Or.inl hr
    | tail _ h =>
        cases e with
        | Use rs2 =>
            simp only [useStartRegions, List.mem_append]
            exact Or.inr (ih h)
        | Fact fc => simpa only [useStartRegions] using ih h

example : (lowerInput issue31567).outlives =
    [("a", "b", 1), ("b", "c", 1), ("c", "d", 1)] := by decide
example : (lowerInput issue31567).region_live_at = [("d", 0), ("d", 1)] := by decide
example : (lowerInput issue31567).borrow_region_at = [("a", "L0", 1)] := by decide
example : (lowerInput issue31567).cfg_edge = [(0, 1)] := by decide
example : (lowerInput threeBlocks).cfg_edge =
    [(0, 1), (1, 2), (2, 3), (3, 4), (4, 5), (5, 6), (6, 7)] := by decide
example : (lowerInput threeBlocks).var_used = [("V1", 7)] := by decide
example : (lowerInput redefineProgram).cfg_edge =
    [(0, 1), (1, 2), (2, 3), (3, 4), (4, 5), (5, 6), (6, 7), (7, 8), (8, 9)] := by decide
example : (lowerInput redefineProgram).var_defined = [("V1", 3)] := by decide
example : (lowerInput redefineProgram).var_used = [("V1", 9)] := by decide

/-! The claims. -/

/-- C1: the spec requires the Optimized strategy's borrow_live_at and errors
to be set-equal to the Naive strategy's point by point. On the issue_31567
program — an outlives chain a, b, c, d reaching a live region with no
intervening point boundary — the modelled Naive analysis derives loan L0
live at the statement's Mid point 1; the repository's own test comment
(test.rs lines 161-165) records that the DatafrogOpt variant misses tuples
of exactly this pattern, so the required equality fails on this input. -/
theorem naive_borrow_live_at_issue31567 :
    BorrowLiveAt (lowerInput issue31567) "L0" 1 :=
  ⟨"d",
    Requires.sub "a" "d" "L0" 1
      (Requires.base "a" "L0" 1 (by decide))
      (Subset.trans "a" "c" "d" 1
        (Subset.trans "a" "b" "c" 1
          (Subset.base "a" "b" 1 (by decide))
          (Subset.base "b" "c" 1 (by decide)))
        (Subset.base "c" "d" 1 (by decide))),
    by decide⟩

/-- C2: for every input fact table and every point, a loan the Naive
strategy reports as an error is also reported by the LocationInsensitive
strategy: the Naive derivation's requires and subset steps all map into
the location-insensitive global closure. -/
theorem naive_errors_subset_insensitive (f : AllFacts) (l : String) (p : Nat)
    (h : Errors f l p) : InsensitiveError f l p := by
  rcases h with ⟨r, hr, hl, hi⟩
  exact ⟨⟨r, requiresAnywhere_of_requires f r l p hr, hl⟩, hi⟩

/-- C2 witness: on the concrete error program the Naive error for loan L0
at point 1 is also a LocationInsensitive error. -/
theorem naive_errors_subset_insensitive_witness :
    InsensitiveError (lowerInput errorProgram) "L0" 1 :=
  naive_errors_subset_insensitive (lowerInput errorProgram) "L0" 1
    ⟨"a", Requires.base "a" "L0" 1 (by decide), by decide, by decide⟩

/-- C3: the errors output holds loan l at point p exactly when l is in
borrow_live_at at p and the input invalidates l at p. -/
theorem errors_iff_borrow_live_and_invalidates (f : AllFacts) (l : String) (p : Nat) :
    Errors f l p ↔ BorrowLiveAt f l p ∧ (l, p) ∈ f.invalidates := by
  constructor
  · rintro ⟨r, hr, hl, hi⟩
    exact ⟨⟨r, hr, hl⟩, hi⟩
  · rintro ⟨⟨r, hr, hl⟩, hi⟩
    exact ⟨r, hr, hl, hi⟩

/-- C4 counterexample: on a program whose outlives facts form a two-cycle
at one point, the derived subset relation records region a as its own
subset through a derived cycle of length two, so the claimed absence of
subset symmetries fails for this input. -/
theorem subset_symmetry_on_cyclic_outlives :
    Subset (lowerInput cyclicOutlives) "a" "a" 1 :=
  Subset.trans "a" "b" "a" 1
    (Subset.base "a" "b" 1 (by decide))
    (Subset.base "b" "a" 1 (by decide))

/-- C4 amended: when the input's outlives facts are acyclic — witnessed by
a ranking of regions that every outlives fact strictly increases — no
region is ever its own derived subset at any point. -/
theorem no_subset_symmetry_of_ranked (f : AllFacts) (rank : String → Nat)
    (hAcyclic : ∀ x ∈ f.outlives, rank x.1 < rank x.2.1) :
    ∀ (r : String) (p : Nat), ¬ Subset f r r p := by
  have key : ∀ (a b : String) (p : Nat), Subset f a b p → rank a < rank b := by
    intro a b p h
    induction h with
    | base a b p hm => exact hAcyclic _ hm
    | trans a b c p h1 h2 ih1 ih2 => exact lt_trans ih1 ih2
    | step a b p q h he l1 l2 ih => exact ih
  intro r p h
  exact lt_irrefl (rank r) (key r r p h)

/-- C4 amended witness: the length ranking certifies the acyclic chain
program, whose subset output therefore has no symmetry at region a. -/
theorem no_subset_symmetry_of_ranked_witness :
    (∀ x ∈ (lowerInput acyclicChain).outlives, x.1.length < x.2.1.length) ∧
    ¬ Subset (lowerInput acyclicChain) "a" "a" 1 :=
  ⟨by decide,
   no_subset_symmetry_of_ranked (lowerInput acyclicChain) String.length (by decide) "a" 1⟩

/-- C5: Statement::new leaves the Mid-point effect list unchanged and
asserts every region_live_at fact of it at the statement's Start point as
well, at construction time. -/
theorem statement_new_promotes_region_live (effects : List Effect) (r : String) :
    (Statement.new effects).effects = effects ∧
    (Effect.Fact (Fact.RegionLiveAt r) ∈ (Statement.new effects).effects →
      Effect.Fact (Fact.RegionLiveAt r) ∈ (Statement.new effects).effects_start) :=
  ⟨rfl, fun h => List.mem_filter.mpr ⟨h, rfl⟩⟩

/-- C6: for a statement built at lowering, the Start-point effect list
holds only region_live_at facts; a use effect naming region r yields a
region_live_at fact for r at the statement's Start point; and every
outlives, borrow_region_at, invalidates, killed, var_defined and var_used
fact the statement emits attaches to its Mid point. -/
theorem statement_start_effects_characterization (effects : List Effect)
    (rs : List String) (r : String) (n : Nat) :
    (∀ e ∈ (Statement.new effects).effects_start,
      ∃ r2, e = Effect.Fact (Fact.RegionLiveAt r2)) ∧
    (Effect.Use rs ∈ effects → r ∈ rs →
      (r, n) ∈ stmtRegionLive n (Statement.new effects)) ∧
    (∀ x ∈ stmtOutlives n (Statement.new effects), x.2.2 = n + 1) ∧
    (∀ x ∈ stmtBorrowRegionAt n (Statement.new effects), x.2.2 = n + 1) ∧
    (∀ x ∈ stmtInvalidates n (Statement.new effects), x.2 = n + 1) ∧
    (∀ x ∈ stmtKilled n (Statement.new effects), x.2 = n + 1) ∧
    (∀ x ∈ stmtVarDefined n (Statement.new effects), x.2 = n + 1) ∧
    (∀ x ∈ stmtVarUsed n (Statement.new effects), x.2 = n + 1) := by
  refine ⟨?_, ?_, ?_, ?_, ?_, ?_, ?_, ?_⟩
  · intro e he
    have h2 := (List.mem_filter.mp he).2
    cases e with
    | Use rs2 => simp at h2
    | Fact fc =>
        cases fc <;> simp at h2
        exact ⟨_, rfl⟩
  · intro hu hr
    have h1 : r ∈ startLiveRegions (Statement.new effects) :=
      List.mem_append.mpr (Or.inr (mem_useStartRegions effects rs r hu hr))
    exact List.mem_append.mpr (Or.inl (List.mem_map.mpr ⟨r, h1, rfl⟩))
  · intro x hx
    simp only [stmtOutlives] at hx
    rcases List.mem_filterMap.mp hx with ⟨e, he, hm⟩
    cases e with
    | Use rs2 => simp at hm
    | Fact fc =>
        cases fc <;> simp at hm
        subst hm
        rfl
  · intro x hx
    simp only [stmtBorrowRegionAt] at hx
    rcases List.mem_filterMap.mp hx with ⟨e, he, hm⟩
    cases e with
    | Use rs2 => simp at hm
    | Fact fc =>
        cases fc <;> simp at hm
        subst hm
        rfl
  · intro x hx
    simp only [stmtInvalidates] at hx
    rcases List.mem_filterMap.mp hx with ⟨e, he, hm⟩
    cases e with
    | Use rs2 => simp at hm
    | Fact fc =>
        cases fc <;> simp at hm
        subst hm
        rfl
  · intro x hx
    simp only [stmtKilled] at hx
    rcases List.mem_filterMap.mp hx with ⟨e, he, hm⟩
    cases e with
    | Use rs2 => simp at hm
    | Fact fc =>
        cases fc <;> simp at hm
        subst hm
        rfl
  · intro x hx
    simp only [stmtVarDefined] at hx
    rcases List.mem_filterMap.mp hx with ⟨e, he, hm⟩
    cases e with
    | Use rs2 => simp at hm
    | Fact fc =>
        cases fc <;> simp at hm
        subst hm
        rfl
  · intro x hx
    simp only [stmtVarUsed] at hx
    rcases List.mem_filterMap.mp hx with ⟨e, he, hm⟩
    cases e with
    | Use rs2 => simp at hm
    | Fact fc =>
        cases fc <;> simp at hm
        subst hm
        rfl

/-- C7: no constructor of the ir.rs Fact enum denotes a variable drop-use,
so no lowered statement effect can carry a drop-use fact and the lowering
can never emit a var_drop_used tuple — although the repository's
var_drop_used_simple test feeds a var_drop_used effect through the parser
and the spec lists drop-use among the statement fact kinds. -/
theorem fact_has_no_drop_use_kind :
    (∀ fc : Fact, Fact.kind fc ≠ SpecFactKind.varDropUsed) ∧
    (∀ inp : Input, (lowerInput inp).var_drop_used = []) := by
  constructor
  · intro fc
    cases fc <;> simp [Fact.kind]
  · intro inp
    rfl

/-- C8: in the modelled Naive variable liveness, a variable used at point
q with a control-flow edge from p to q is live at p unless (re)defined at
p; and on the lowered three-block test program the use of V1 in the third
block makes V1 live at the first block's entry point 0, across two block
boundaries. -/
theorem var_live_backward_propagation :
    (∀ (f : AllFacts) (v : String) (p q : Nat),
        (v, q) ∈ f.var_used → (p, q) ∈ f.cfg_edge → (v, p) ∉ f.var_defined →
        VarLive f v p) ∧
    VarLive (lowerInput threeBlocks) "V1" 0 := by
  constructor
  · intro f v p q hu he hd
    exact VarLive.step v p q (VarLive.use v q hu) he hd
  · have h7 : VarLive (lowerInput threeBlocks) "V1" 7 := VarLive.use "V1" 7 (by decide)
    have h6 := VarLive.step "V1" 6 7 h7 (by decide) (by decide)
    have h5 := VarLive.step "V1" 5 6 h6 (by decide) (by decide)
    have h4 := VarLive.step "V1" 4 5 h5 (by decide) (by decide)
    have h3 := VarLive.step "V1" 3 4 h4 (by decide) (by decide)
    have h2 := VarLive.step "V1" 2 3 h3 (by decide) (by decide)
    have h1 := VarLive.step "V1" 1 2 h2 (by decide) (by decide)
    exact VarLive.step "V1" 0 1 h1 (by decide) (by decide)

/-- C9: a variable is live only where it is used or where it is not
(re)defined and some successor keeps it live — so a definition removes it
from the live-in set contributed to predecessors; on the lowered
redefinition program, V1 is live neither at block B0's entry point 0 nor
at the defining statement's Mid point 3. -/
theorem var_live_killed_by_definition :
    (∀ (f : AllFacts) (v : String) (p : Nat), VarLive f v p →
        (v, p) ∈ f.var_used ∨
        ((v, p) ∉ f.var_defined ∧ ∃ q, (p, q) ∈ f.cfg_edge ∧ VarLive f v q)) ∧
    ¬ VarLive (lowerInput redefineProgram) "V1" 0 ∧
    ¬ VarLive (lowerInput redefineProgram) "V1" 3 := by
  refine ⟨?_, ?_, ?_⟩
  · intro f v p h
    exact match h with
      | VarLive.use _ _ hm => Or.inl hm
      | VarLive.step _ _ q hq he hd => Or.inr ⟨hd, q, he, hq⟩
  · intro h
    exact absurd (varLive_bound (lowerInput redefineProgram) redefineLiveSet
      (by decide) (by decide) "V1" 0 h) (by decide)
  · intro h
    exact absurd (varLive_bound (lowerInput redefineProgram) redefineLiveSet
      (by decide) (by decide) "V1" 3 h) (by decide)

/-- C10: Input::new with no projection tables supplied yields empty
var_uses_region and var_drops_region relations, and lowering such an
input is defined and produces empty projection relations. -/
theorem input_new_defaults (ur : List String) (blocks : List Block) :
    (Input.new ur none none blocks).var_uses_region = [] ∧
    (Input.new ur none none blocks).var_drops_region = [] ∧
    (lowerInput (Input.new ur none none blocks)).var_uses_region = [] ∧
    (lowerInput (Input.new ur none none blocks)).var_drops_region = [] :=
  ⟨rfl, rfl, rfl, rfl⟩

end Polonius
